import Mathlib

/-!
Shallow embedding of the `ledsrv` daemon (src/ledsrv.cpp, src/ledsrv.h,
src/view_stdout.cpp): the LED state record, the command table and its
handlers, request dispatch (`DispatchRequest`), batch decoding
(`ReadRequests`), per-client processing (`ProcessClient`) and the
`Fifo::create` control flow.

C++ exceptions that escape a handler (notably `std::stoi` on unparseable
input) are modelled with `Except Unit`: `.error ()` means an exception
propagates out, which in the real program terminates the process since no
caller catches it.  The State Sink (`ILedView::Update`) is modelled by
recording the list of states it is notified with.
-/

namespace LedSrv

/-- Possible LED colors, from `enum class LedColor` in ledsrv.h. -/
inductive LedColor
  | Red
  | Green
  | Blue
deriving DecidableEq, Repr

/-- Led state description, from `struct LedState` in ledsrv.h:
on/off flag, current color, blink rate. -/
structure LedState where
  state : Bool
  color : LedColor
  rate  : Nat
deriving DecidableEq, Repr

/-- The global LED state's initializer: `gLedState = {false, Red, 1}`. -/
def gLedStateInit : LedState :=
  { state := false, color := LedColor.Red, rate := 1 }

/-- Characters matched by `boost::is_space()` / `std::isspace` in the
classic locale: space, tab, newline, vertical tab, form feed, carriage
return. -/
def isSpaceChar (c : Char) : Bool :=
  c = ' ' || c = '\t' || c = '\n' || c = Char.ofNat 11 || c = Char.ofNat 12 || c = '\r'

/-- Model of `boost::split(argv, req, boost::is_space())` with the default
`token_compress_off`: every whitespace character is a delimiter, adjacent
delimiters produce empty tokens. -/
def splitWS (s : String) : List String :=
  (s.toList.splitOnP isSpaceChar).map fun cs => String.mk cs

/-- Compression step of `boost::algorithm::token_compress_on` applied to
the tail of a split: interior empty tokens (arising from adjacent
delimiters) are merged away, while the final token is kept even when
empty. -/
def compressTail : List (List Char) → List (List Char)
  | [] => []
  | [x] => [x]
  | x :: y :: ys => if x.isEmpty then compressTail (y :: ys) else x :: compressTail (y :: ys)

/-- Model of `boost::split(req, input, boost::is_any_of("\n"),
token_compress_on)`: split on newline, then compress interior empties;
the leading and trailing tokens survive even when empty. -/
def splitNLCompress (s : String) : List String :=
  match s.toList.splitOn '\n' with
  | [] => []
  | x :: xs => (x :: compressTail xs).map fun cs => String.mk cs

/-- Model of `boost::iequals`: case-insensitive string comparison
(ASCII case folding, as in the classic locale). -/
def iequals (a b : String) : Bool :=
  a.toList.map Char.toLower == b.toList.map Char.toLower

/-- Digit run to number, most significant first. -/
def digitsToNat (ds : List Char) : Nat :=
  ds.foldl (fun a c => a * 10 + (c.toNat - 48)) 0

/-- Model of `std::stoi`: skip leading whitespace, optional sign, then a
non-empty run of decimal digits (trailing junk ignored).  `none` models a
thrown exception: `std::invalid_argument` when no digits are found, or
`std::out_of_range` when the value does not fit in `int`. -/
def stoi (s : String) : Option Int :=
  let cs := s.toList.dropWhile isSpaceChar
  let sc : Int × List Char :=
    match cs with
    | '-' :: r => (-1, r)
    | '+' :: r => (1, r)
    | _ => (1, cs)
  let ds := sc.2.takeWhile Char.isDigit
  if ds.isEmpty then none
  else
    let v : Int := sc.1 * (digitsToNat ds : Int)
    if v < -2147483648 || 2147483647 < v then none else some v

/-- Result of one handler invocation: `.ok (success, output, led)` is a
normal return with the handler's boolean result, the `output` string and
the (possibly mutated) working copy `led`; `.error ()` is a C++ exception
escaping the handler. -/
abbrev HandlerResult := Except Unit (Bool × String × LedState)

/-- Handler of `"set-led-state"`: accepts `on`/`off` case-insensitively,
sets the on/off flag; any other token is rejected.  An argv of the wrong
shape would trip the C++ `assert`, modelled as `.error`. -/
def setLedStateHandler (argv : List String) (output : String) (led : LedState) : HandlerResult :=
  match argv with
  | [_, arg] =>
    if iequals arg "on" then .ok (true, output, { led with state := true })
    else if iequals arg "off" then .ok (true, output, { led with state := false })
    else .ok (false, output, led)
  | _ => .error ()

/-- Handler of `"get-led-state"`: outputs `on` or `off`. -/
def getLedStateHandler (_argv : List String) (_output : String) (led : LedState) : HandlerResult :=
  .ok (true, if led.state then "on" else "off", led)

/-- Handler of `"set-led-color"`: accepts `red`/`blue`/`green`
case-insensitively. -/
def setLedColorHandler (argv : List String) (output : String) (led : LedState) : HandlerResult :=
  match argv with
  | [_, arg] =>
    if iequals arg "red" then .ok (true, output, { led with color := LedColor.Red })
    else if iequals arg "blue" then .ok (true, output, { led with color := LedColor.Blue })
    else if iequals arg "green" then .ok (true, output, { led with color := LedColor.Green })
    else .ok (false, output, led)
  | _ => .error ()

/-- Handler of `"get-led-color"`: outputs the color name. -/
def getLedColorHandler (_argv : List String) (_output : String) (led : LedState) : HandlerResult :=
  .ok (true,
    (match led.color with
     | LedColor.Red => "red"
     | LedColor.Blue => "blue"
     | LedColor.Green => "green"),
    led)

/-- Handler of `"set-led-rate"`: `int arg = std::stoi(argv[1])` — an
unparseable argument makes `stoi` throw, and the exception escapes the
handler (`.error`); a parsed value outside `1..5` is rejected with
`false`; otherwise the rate is set. -/
def setLedRateHandler (argv : List String) (output : String) (led : LedState) : HandlerResult :=
  match argv with
  | [_, arg] =>
    match stoi arg with
    | none => .error ()
    | some n =>
      if n < 1 ∨ 5 < n then .ok (false, output, led)
      else .ok (true, output, { led with rate := n.toNat })
  | _ => .error ()

/-- Handler of `"get-led-rate"`: outputs the decimal rate. -/
def getLedRateHandler (_argv : List String) (_output : String) (led : LedState) : HandlerResult :=
  .ok (true, toString led.rate, led)

/-- One entry of the command table: verb, declared argument count,
handler (`struct LedRequestDesc`). -/
structure LedRequestDesc where
  command : String
  nargs : Nat
  handler : List String → String → LedState → HandlerResult

/-- The static command table `gRequests`, in source order. -/
def gRequests : List LedRequestDesc :=
  [ ⟨"set-led-state", 1, setLedStateHandler⟩,
    ⟨"get-led-state", 0, getLedStateHandler⟩,
    ⟨"set-led-color", 1, setLedColorHandler⟩,
    ⟨"get-led-color", 0, getLedColorHandler⟩,
    ⟨"set-led-rate", 1, setLedRateHandler⟩,
    ⟨"get-led-rate", 0, getLedRateHandler⟩ ]

deriving instance DecidableEq for Except

/-- Observable outcome of `DispatchRequest` on one request: `ok` is the
boolean return (or an escaping exception), `response` the out-parameter
`respose`, `st` the global `gLedState` afterwards, `notified` the
sequence of `gLedView->Update` calls made. -/
structure DispatchResult where
  ok : Except Unit Bool
  response : String
  st : LedState
  notified : List LedState
deriving DecidableEq, Repr

/-- Commit step of `DispatchRequest` after a handler returned normally:
`if (res && (led != gLedState)) { gLedView->Update(led); gLedState = led; }`
— commit the working copy and notify the view only when the handler
succeeded and the copy differs from the committed state. -/
def commitResult (res : Bool) (out : String) (led g : LedState) : DispatchResult :=
  if res = true ∧ led ≠ g then
    { ok := .ok res, response := out, st := led, notified := [led] }
  else
    { ok := .ok res, response := out, st := g, notified := [] }

/-- Model of `DispatchRequest`: split the request on whitespace (no
compression), look up the first table entry whose verb equals token 0
exactly and whose arity equals the remaining token count, run its handler
on a working copy of the state, and commit via `commitResult`. -/
def DispatchRequest (req : String) (g : LedState) : DispatchResult :=
  match splitWS req with
  | [] => { ok := .ok false, response := "", st := g, notified := [] }
  | cmd :: args =>
    match gRequests.find? (fun r => cmd == r.command && args.length == r.nargs) with
    | none => { ok := .ok false, response := "", st := g, notified := [] }
    | some r =>
      match r.handler (cmd :: args) "" g with
      | .error () => { ok := .error (), response := "", st := g, notified := [] }
      | .ok (res, out, led) => commitResult res out led g

/-- Text of a newline-terminated request batch: each request followed by
one newline character. -/
def batchText : List String → String
  | [] => ""
  | r :: rest => r ++ "\n" ++ batchText rest

/-- Model of `ReadRequests` applied to the decoded text of one successful
read: split on newline with compression, then unconditionally
`pop_back()` the final entry. -/
def ReadRequestsText (input : String) : List String :=
  (splitNLCompress input).dropLast

/-- Model of `ReadRequests`: `none` in models a failed read (negative
return of `::read`), `some input` a successful read whose buffer decodes
to `input` (a zero-byte read decodes to `""`). -/
def ReadRequests : Option String → Option (List String)
  | none => none
  | some input => some (ReadRequestsText input)

/-- Model of `ProcessClient`'s dispatch loop on an already-decoded
request batch.  `.ok (lines, g, notifs)` : all requests dispatched, with
the response lines written, the final state and the view notifications;
`.error (lines, g)` : an exception escaped `DispatchRequest` (process
terminates), with the lines already written and the state at that
moment. -/
def ProcessClient : List String → LedState →
    Except (List String × LedState) (List String × LedState × List LedState)
  | [], g => .ok ([], g, [])
  | r :: rest, g =>
    let d := DispatchRequest r g
    match d.ok with
    | .error () => .error ([], d.st)
    | .ok true =>
      let line := "OK" ++ (if d.response.length > 0 then " " ++ d.response else "") ++ "\n"
      match ProcessClient rest d.st with
      | .ok (ls, g', ns) => .ok (line :: ls, g', d.notified ++ ns)
      | .error (ls, g') => .error (line :: ls, g')
    | .ok false =>
      match ProcessClient rest d.st with
      | .ok (ls, g', ns) => .ok ("FAILED\n" :: ls, g', d.notified ++ ns)
      | .error (ls, g') => .error ("FAILED\n" :: ls, g')

/-- Outcomes of the system calls made by `Fifo::create` and the state of
the object before the call: every branch of the C++ function is driven by
these values. -/
structure FifoCreateEnv where
  wasOpen : Bool
  sameName : Bool
  fileExists : Bool
  statRes : Int
  isFifo : Bool
  unlinkRes : Int
  mkfifoRes : Int
  openRes : Int
deriving DecidableEq, Repr

/-- Tail of `Fifo::create` once any stale file is dealt with: `mkfifo`,
then `this->open`; the open's result decides only whether the fifo file
is unlinked again, never the return value.  Returns the C++ return value
and whether the `Fifo` is open afterwards. -/
def fifoCreateFinish (e : FifoCreateEnv) : Int × Bool :=
  if e.mkfifoRes ≠ 0 then (e.mkfifoRes, e.wasOpen)
  else (0, if e.openRes = 0 then true else e.wasOpen)

/-- Model of `Fifo::create`: early success when the name is already this
object's name; otherwise remove a stale fifo if one exists (propagating
`stat`/`unlink` failures), then `mkfifo` and open. -/
def fifoCreate (e : FifoCreateEnv) : Int × Bool :=
  if e.sameName then (0, e.wasOpen)
  else if e.fileExists then
    if e.statRes ≠ 0 then (e.statRes, e.wasOpen)
    else if e.isFifo ∧ e.unlinkRes ≠ 0 then (e.unlinkRes, e.wasOpen)
    else fifoCreateFinish e
  else fifoCreateFinish e

/-! ### Helper lemmas about the dispatch commit step -/

lemma commitResult_spec (res : Bool) (out : String) (led g : LedState) :
    (res = true ∧ led ≠ g ∧ commitResult res out led g =
      { ok := .ok res, response := out, st := led, notified := [led] }) ∨
    (¬(res = true ∧ led ≠ g) ∧ commitResult res out led g =
      { ok := .ok res, response := out, st := g, notified := [] }) := by
  unfold commitResult
  split
  · next h => exact .inl ⟨h.1, h.2, rfl⟩
  · next h => exact .inr ⟨h, rfl⟩

lemma DispatchRequest_shape (req : String) (g : LedState) :
    (DispatchRequest req g = { ok := .ok false, response := "", st := g, notified := [] }) ∨
    (∃ cmd args r, splitWS req = cmd :: args ∧
      gRequests.find? (fun d => cmd == d.command && args.length == d.nargs) = some r ∧
      ((r.handler (cmd :: args) "" g = .error () ∧
        DispatchRequest req g = { ok := .error (), response := "", st := g, notified := [] }) ∨
       (∃ res out led, r.handler (cmd :: args) "" g = .ok (res, out, led) ∧
        DispatchRequest req g = commitResult res out led g))) := by
  unfold DispatchRequest
  split
  · exact .inl rfl
  · next cmd args heqsp =>
    split
    · exact .inl rfl
    · next r heqf =>
      refine .inr ⟨cmd, args, r, heqsp, heqf, ?_⟩
      split
      · next heqh => exact .inl ⟨heqh, rfl⟩
      · next res out led heqh => exact .inr ⟨res, out, led, heqh, rfl⟩

lemma find?_mem {cmd : String} {n : Nat} {r : LedRequestDesc}
    (h : gRequests.find? (fun d => cmd == d.command && n == d.nargs) = some r) :
    r ∈ gRequests :=
  List.mem_of_find?_eq_some h

lemma commitResult_ok_proj (res : Bool) (out : String) (led g : LedState) :
    (commitResult res out led g).ok = .ok res := by
  unfold commitResult
  split <;> rfl

/-! ### Claim theorems -/

/-- C1 (failing input evaluated): dispatching `set-led-rate five` — a
set-led-rate request whose single argument is not parseable as a number —
does not produce a `FAILED` response: `std::stoi` throws and the
exception escapes `DispatchRequest` uncaught (modelled by `.error ()`),
so the process terminates; the committed state is unchanged at that
moment, but the remaining requests of the batch are never served and no
response line is written for the failing request. -/
theorem dispatch_unparseable_rate_throws :
    DispatchRequest "set-led-rate five" gLedStateInit =
      { ok := .error (), response := "", st := gLedStateInit, notified := [] } ∧
    ProcessClient ["set-led-rate five", "get-led-rate"] gLedStateInit =
      .error ([], gLedStateInit) :=
  ⟨rfl, rfl⟩

/-- C2 counterexample: a read whose final request is not
newline-terminated does not yield that final request — the single
request `set-led-state on` without a trailing newline decodes to the
empty batch, because `ReadRequests` pops the last split entry
unconditionally. -/
theorem readRequests_drops_unterminated_tail :
    ReadRequests (some "set-led-state on") = some ([] : List String) ∧
    ([] : List String) ≠ ["set-led-state on"] :=
  ⟨rfl, by decide⟩

/-- C3 counterexample: `set-led-state  on` (two spaces) is not dispatched
identically to `set-led-state on` — the double-space form fails while
the single-space form succeeds. -/
theorem dispatch_double_space_differs :
    (DispatchRequest "set-led-state  on" gLedStateInit).ok = Except.ok false ∧
    (DispatchRequest "set-led-state on" gLedStateInit).ok = Except.ok true :=
  ⟨rfl, rfl⟩

/-- C3 (amended): the dispatcher splits the request line at every
whitespace character without compressing runs, so consecutive whitespace
yields empty tokens that count toward the arity; a command whose fields
are separated by two spaces produces three tokens, matches no table
entry, and fails with the state unchanged, while the single-space form
succeeds. -/
theorem dispatch_whitespace_not_compressed (g : LedState) :
    splitWS "set-led-state  on" = ["set-led-state", "", "on"] ∧
    (DispatchRequest "set-led-state  on" g).ok = Except.ok false ∧
    (DispatchRequest "set-led-state  on" g).st = g ∧
    (DispatchRequest "set-led-state on" g).ok = Except.ok true := by
  refine ⟨rfl, rfl, rfl, ?_⟩
  rw [show DispatchRequest "set-led-state on" g =
        commitResult true "" { g with state := true } g from rfl,
      commitResult_ok_proj]

/-- C6: whenever `DispatchRequest` returns failure (unknown verb, arity
mismatch, or the handler rejecting its argument value), the committed
state after the dispatch equals the committed state before it. -/
theorem dispatch_failure_preserves_state (req : String) (g : LedState)
    (h : (DispatchRequest req g).ok = Except.ok false) :
    (DispatchRequest req g).st = g := by
  rcases DispatchRequest_shape req g with hd | ⟨cmd, args, r, _, _, hcase⟩
  · rw [hd]
  · rcases hcase with ⟨_, hd⟩ | ⟨res, out, led, _, hd⟩
    · rw [hd]
    · rcases commitResult_spec res out led g with ⟨hres, _, hc⟩ | ⟨_, hc⟩
      · rw [hd, hc] at h
        simp only [Except.ok.injEq] at h
        rw [h] at hres
        exact absurd hres (by decide)
      · rw [hd, hc]

/-- C6 witness: the unknown verb `blink` fails and leaves the default
state unchanged. -/
theorem dispatch_failure_preserves_state_witness :
    (DispatchRequest "blink" gLedStateInit).ok = Except.ok false ∧
    (DispatchRequest "blink" gLedStateInit).st = gLedStateInit :=
  ⟨rfl, dispatch_failure_preserves_state "blink" gLedStateInit rfl⟩

/-- C7: from the default state, the batch `[set-led-color blue,
get-led-color, set-led-rate 9, get-led-rate]` produces exactly the four
response lines `OK\n`, `OK blue\n`, `FAILED\n`, `OK 1\n`, one per
request. -/
theorem processClient_end_to_end :
    ProcessClient ["set-led-color blue", "get-led-color", "set-led-rate 9", "get-led-rate"]
      gLedStateInit =
      .ok (["OK\n", "OK blue\n", "FAILED\n", "OK 1\n"],
           { state := false, color := LedColor.Blue, rate := 1 },
           [{ state := false, color := LedColor.Blue, rate := 1 }]) :=
  rfl

/-- C8: value arguments match case-insensitively while verbs match
exactly: `set-led-state On` and `set-led-state on` produce identical
dispatch outcomes (same response, state and notifications),
`set-led-state xyz` fails with the state unchanged, and the verb
`Set-Led-State`, differing from its table entry only in case, matches no
entry and fails with the state unchanged. -/
theorem dispatch_case_sensitivity (g : LedState) :
    DispatchRequest "set-led-state On" g = DispatchRequest "set-led-state on" g ∧
    (DispatchRequest "set-led-state xyz" g).ok = Except.ok false ∧
    (DispatchRequest "set-led-state xyz" g).st = g ∧
    (DispatchRequest "Set-Led-State on" g).ok = Except.ok false ∧
    (DispatchRequest "Set-Led-State on" g).st = g :=
  ⟨rfl, rfl, rfl, rfl, rfl⟩

/-- C10: a successful read of zero bytes (end of file, peer closed) is
treated as success with an empty request batch: `ReadRequests` returns
`some` (the C++ function returns `true`) and the request vector is
empty. -/
theorem readRequests_zero_byte_read :
    ReadRequests (some "") = some ([] : List String) ∧
    ReadRequests none = none :=
  ⟨rfl, rfl⟩

/-- C9: once control reaches the `mkfifo` call and it succeeds,
`Fifo::create` returns 0 on every path — the negative result of the
internal `open` step is never propagated to the caller, who proceeds
with a `Fifo` that is not open. -/
theorem fifoCreate_success_despite_open_failure (e : FifoCreateEnv)
    (hwas : e.wasOpen = false) (hname : e.sameName = false)
    (hstat : e.fileExists = true → e.statRes = 0)
    (hunlink : e.fileExists = true → e.isFifo = true → e.unlinkRes = 0)
    (hmk : e.mkfifoRes = 0) (hopen : e.openRes < 0) :
    fifoCreate e = (0, false) := by
  have hne : e.openRes ≠ 0 := by omega
  cases hex : e.fileExists with
  | false => simp [fifoCreate, fifoCreateFinish, hname, hex, hmk, hne, hwas]
  | true =>
    cases hif : e.isFifo with
    | false =>
      simp [fifoCreate, fifoCreateFinish, hname, hex, hstat hex, hif, hmk, hne, hwas]
    | true =>
      simp [fifoCreate, fifoCreateFinish, hname, hex, hstat hex, hif, hunlink hex hif,
        hmk, hne, hwas]

/-- C9 witness: with no pre-existing file, a successful `mkfifo` and an
`open` that fails with -1, `Fifo::create` still reports success while the
fifo is not open. -/
theorem fifoCreate_success_despite_open_failure_witness :
    fifoCreate ⟨false, false, false, 0, false, 0, 0, -1⟩ = (0, false) :=
  fifoCreate_success_despite_open_failure ⟨false, false, false, 0, false, 0, 0, -1⟩
    rfl rfl (by decide) (by decide) rfl (by decide)

lemma handler_rate_bound {r : LedRequestDesc} (hr : r ∈ gRequests)
    {argv : List String} {res : Bool} {out : String} {g led : LedState}
    (h : r.handler argv "" g = .ok (res, out, led)) :
    led.rate = g.rate ∨ (1 ≤ led.rate ∧ led.rate ≤ 5) := by
  fin_cases hr <;> dsimp only at h
  · -- set-led-state
    rcases argv with _ | ⟨a, _ | ⟨b, _ | ⟨c, rest⟩⟩⟩
    · exact absurd h (by simp [setLedStateHandler])
    · exact absurd h (by simp [setLedStateHandler])
    · simp only [setLedStateHandler] at h
      split at h <;> [skip; split at h] <;>
        · simp only [Except.ok.injEq, Prod.mk.injEq] at h
          obtain ⟨-, -, hled⟩ := h
          subst hled
          left
          rfl
    · exact absurd h (by simp [setLedStateHandler])
  · -- get-led-state
    simp only [getLedStateHandler, Except.ok.injEq, Prod.mk.injEq] at h
    obtain ⟨-, -, hled⟩ := h
    subst hled
    left
    rfl
  · -- set-led-color
    rcases argv with _ | ⟨a, _ | ⟨b, _ | ⟨c, rest⟩⟩⟩
    · exact absurd h (by simp [setLedColorHandler])
    · exact absurd h (by simp [setLedColorHandler])
    · simp only [setLedColorHandler] at h
      split at h <;> [skip; split at h] <;> [skip; skip; split at h] <;>
        · simp only [Except.ok.injEq, Prod.mk.injEq] at h
          obtain ⟨-, -, hled⟩ := h
          subst hled
          left
          rfl
    · exact absurd h (by simp [setLedColorHandler])
  · -- get-led-color
    simp only [getLedColorHandler, Except.ok.injEq, Prod.mk.injEq] at h
    obtain ⟨-, -, hled⟩ := h
    subst hled
    left
    rfl
  · -- set-led-rate
    rcases argv with _ | ⟨a, _ | ⟨b, _ | ⟨c, rest⟩⟩⟩
    · exact absurd h (by simp [setLedRateHandler])
    · exact absurd h (by simp [setLedRateHandler])
    · simp only [setLedRateHandler] at h
      split at h
      · exact absurd h (by simp)
      · split at h
        · simp only [Except.ok.injEq, Prod.mk.injEq] at h
          obtain ⟨-, -, hled⟩ := h
          subst hled
          left
          rfl
        · next hcond =>
          push_neg at hcond
          simp only [Except.ok.injEq, Prod.mk.injEq] at h
          obtain ⟨-, -, hled⟩ := h
          subst hled
          right
          dsimp only
          constructor <;> omega
    · exact absurd h (by simp [setLedRateHandler])
  · -- get-led-rate
    simp only [getLedRateHandler, Except.ok.injEq, Prod.mk.injEq] at h
    obtain ⟨-, -, hled⟩ := h
    subst hled
    left
    rfl

/-- C4: the committed state's rate is always within `[1,5]`: the default
state satisfies it, and every dispatched request — whatever its verb,
arguments or outcome — preserves it on the committed record. -/
theorem dispatch_preserves_rate_invariant :
    (1 ≤ gLedStateInit.rate ∧ gLedStateInit.rate ≤ 5) ∧
    ∀ (req : String) (g : LedState), 1 ≤ g.rate → g.rate ≤ 5 →
      1 ≤ (DispatchRequest req g).st.rate ∧ (DispatchRequest req g).st.rate ≤ 5 := by
  refine ⟨by decide, fun req g h1 h5 => ?_⟩
  rcases DispatchRequest_shape req g with hd | ⟨cmd, args, r, hsp, hf, hcase⟩
  · rw [hd]; exact ⟨h1, h5⟩
  · rcases hcase with ⟨_, hd⟩ | ⟨res, out, led, hh, hd⟩
    · rw [hd]; exact ⟨h1, h5⟩
    · rcases commitResult_spec res out led g with ⟨_, _, hc⟩ | ⟨_, hc⟩
      · rw [hd, hc]
        rcases handler_rate_bound (find?_mem hf) hh with hrr | ⟨ha, hb⟩
        · show 1 ≤ led.rate ∧ led.rate ≤ 5
          rw [hrr]
          exact ⟨h1, h5⟩
        · exact ⟨ha, hb⟩
      · rw [hd, hc]; exact ⟨h1, h5⟩

/-- C4 witness: dispatching `set-led-rate 4` from the default state keeps
the committed rate within `[1,5]`. -/
theorem dispatch_preserves_rate_invariant_witness :
    1 ≤ (DispatchRequest "set-led-rate 4" gLedStateInit).st.rate ∧
    (DispatchRequest "set-led-rate 4" gLedStateInit).st.rate ≤ 5 :=
  dispatch_preserves_rate_invariant.2 "set-led-rate 4" gLedStateInit (by decide) (by decide)

lemma DispatchRequest_eval {req cmd : String} {args : List String} {r : LedRequestDesc}
    (hsp : splitWS req = cmd :: args)
    (hf : gRequests.find? (fun d => cmd == d.command && args.length == d.nargs) = some r)
    (g : LedState) :
    DispatchRequest req g =
      match r.handler (cmd :: args) "" g with
      | .error () => { ok := .error (), response := "", st := g, notified := [] }
      | .ok (res, out, led) => commitResult res out led g := by
  unfold DispatchRequest
  rw [hsp]
  dsimp only
  rw [hf]

lemma handler_idem {r : LedRequestDesc} (hr : r ∈ gRequests)
    {argv : List String} {res : Bool} {out : String} {g led : LedState}
    (h : r.handler argv "" g = .ok (res, out, led)) :
    ∃ out2, r.handler argv "" led = .ok (res, out2, led) := by
  fin_cases hr <;> dsimp only at h ⊢
  · -- set-led-state
    rcases argv with _ | ⟨a, _ | ⟨b, _ | ⟨c, rest⟩⟩⟩
    · exact absurd h (by simp [setLedStateHandler])
    · exact absurd h (by simp [setLedStateHandler])
    · simp only [setLedStateHandler] at h ⊢
      split at h
      · next hc1 =>
        simp only [Except.ok.injEq, Prod.mk.injEq] at h
        obtain ⟨hres, -, hled⟩ := h
        subst hres
        subst hled
        exact ⟨"", by simp [hc1]⟩
      · next hc1 =>
        split at h
        · next hc2 =>
          simp only [Except.ok.injEq, Prod.mk.injEq] at h
          obtain ⟨hres, -, hled⟩ := h
          subst hres
          subst hled
          exact ⟨"", by simp [hc1, hc2]⟩
        · next hc2 =>
          simp only [Except.ok.injEq, Prod.mk.injEq] at h
          obtain ⟨hres, -, hled⟩ := h
          subst hres
          subst hled
          exact ⟨"", by simp [hc1, hc2]⟩
    · exact absurd h (by simp [setLedStateHandler])
  · -- get-led-state
    simp only [getLedStateHandler, Except.ok.injEq, Prod.mk.injEq] at h
    obtain ⟨hres, -, hled⟩ := h
    subst hres
    subst hled
    exact ⟨_, rfl⟩
  · -- set-led-color
    rcases argv with _ | ⟨a, _ | ⟨b, _ | ⟨c, rest⟩⟩⟩
    · exact absurd h (by simp [setLedColorHandler])
    · exact absurd h (by simp [setLedColorHandler])
    · simp only [setLedColorHandler] at h ⊢
      split at h
      · next hc1 =>
        simp only [Except.ok.injEq, Prod.mk.injEq] at h
        obtain ⟨hres, -, hled⟩ := h
        subst hres
        subst hled
        exact ⟨"", by simp [hc1]⟩
      · next hc1 =>
        split at h
        · next hc2 =>
          simp only [Except.ok.injEq, Prod.mk.injEq] at h
          obtain ⟨hres, -, hled⟩ := h
          subst hres
          subst hled
          exact ⟨"", by simp [hc1, hc2]⟩
        · next hc2 =>
          split at h
          · next hc3 =>
            simp only [Except.ok.injEq, Prod.mk.injEq] at h
            obtain ⟨hres, -, hled⟩ := h
            subst hres
            subst hled
            exact ⟨"", by simp [hc1, hc2, hc3]⟩
          · next hc3 =>
            simp only [Except.ok.injEq, Prod.mk.injEq] at h
            obtain ⟨hres, -, hled⟩ := h
            subst hres
            subst hled
            exact ⟨"", by simp [hc1, hc2, hc3]⟩
    · exact absurd h (by simp [setLedColorHandler])
  · -- get-led-color
    simp only [getLedColorHandler, Except.ok.injEq, Prod.mk.injEq] at h
    obtain ⟨hres, -, hled⟩ := h
    subst hres
    subst hled
    exact ⟨_, rfl⟩
  · -- set-led-rate
    rcases argv with _ | ⟨a, _ | ⟨b, _ | ⟨c, rest⟩⟩⟩
    · exact absurd h (by simp [setLedRateHandler])
    · exact absurd h (by simp [setLedRateHandler])
    · simp only [setLedRateHandler] at h ⊢
      split at h
      · exact absurd h (by simp)
      · next n heq =>
        split at h
        · next hcond =>
          simp only [Except.ok.injEq, Prod.mk.injEq] at h
          obtain ⟨hres, -, hled⟩ := h
          subst hres
          subst hled
          refine ⟨"", ?_⟩
          rw [if_pos hcond]
        · next hcond =>
          simp only [Except.ok.injEq, Prod.mk.injEq] at h
          obtain ⟨hres, -, hled⟩ := h
          subst hres
          subst hled
          refine ⟨"", ?_⟩
          rw [if_neg hcond]
    · exact absurd h (by simp [setLedRateHandler])
  · -- get-led-rate
    simp only [getLedRateHandler, Except.ok.injEq, Prod.mk.injEq] at h
    obtain ⟨hres, -, hled⟩ := h
    subst hres
    subst hled
    exact ⟨_, rfl⟩

lemma dispatch_notify_spec (req : String) (g : LedState) :
    ((DispatchRequest req g).notified = [] ∧ (DispatchRequest req g).st = g) ∨
    ((DispatchRequest req g).ok = Except.ok true ∧ (DispatchRequest req g).st ≠ g ∧
     (DispatchRequest req g).notified = [(DispatchRequest req g).st]) := by
  rcases DispatchRequest_shape req g with hd | ⟨cmd, args, r, hsp, hf, hcase⟩
  · rw [hd]; exact .inl ⟨rfl, rfl⟩
  · rcases hcase with ⟨_, hd⟩ | ⟨res, out, led, hh, hd⟩
    · rw [hd]; exact .inl ⟨rfl, rfl⟩
    · rcases commitResult_spec res out led g with ⟨hres, hne, hc⟩ | ⟨_, hc⟩
      · rw [hd, hc]
        subst hres
        exact .inr ⟨rfl, hne, rfl⟩
      · rw [hd, hc]; exact .inl ⟨rfl, rfl⟩

lemma dispatch_repeat_no_notify (req : String) (g : LedState) :
    (DispatchRequest req (DispatchRequest req g).st).notified = [] := by
  rcases DispatchRequest_shape req g with hd | ⟨cmd, args, r, hsp, hf, hcase⟩
  · rw [hd]
    show (DispatchRequest req g).notified = []
    rw [hd]
  · rcases hcase with ⟨hh, hd⟩ | ⟨res, out, led, hh, hd⟩
    · rw [hd]
      show (DispatchRequest req g).notified = []
      rw [hd]
    · rcases commitResult_spec res out led g with ⟨hres, hne, hc⟩ | ⟨_, hc⟩
      · rw [hd, hc]
        show (DispatchRequest req led).notified = []
        obtain ⟨out2, hh2⟩ := handler_idem (find?_mem hf) hh
        rw [DispatchRequest_eval hsp hf led]
        rw [hh2]
        dsimp only
        rcases commitResult_spec res out2 led led with ⟨_, hne2, _⟩ | ⟨_, hc2⟩
        · exact absurd rfl hne2
        · rw [hc2]
      · rw [hd, hc]
        show (DispatchRequest req g).notified = []
        rw [hd, hc]

lemma toList_append (s t : String) : (s ++ t).toList = s.toList ++ t.toList := by
  cases s
  cases t
  rfl

lemma mk_toList (s : String) : String.mk s.toList = s := rfl

lemma toList_batchText (rs : List String) :
    (batchText rs).toList = ((rs.map String.toList).map (· ++ ['\n'])).flatten := by
  induction rs with
  | nil => rfl
  | cons r rest ih =>
    simp only [batchText, List.map_cons, List.flatten_cons, toList_append, ih,
      List.append_assoc]
    rfl

lemma splitOnP_batch (rs : List (List Char)) (t : List Char)
    (hrs : ∀ r ∈ rs, '\n' ∉ r) (ht : '\n' ∉ t) :
    ((rs.map (· ++ ['\n'])).flatten ++ t).splitOnP (· == '\n') = rs ++ [t] := by
  induction rs with
  | nil =>
    simp only [List.map_nil, List.flatten_nil, List.nil_append]
    exact List.splitOnP_eq_single _ _ fun x hx => by
      simp only [beq_iff_eq]
      exact fun h => ht (h ▸ hx)
  | cons r rest ih =>
    simp only [List.map_cons, List.flatten_cons, List.append_assoc, List.singleton_append,
      List.cons_append, List.nil_append]
    rw [List.splitOnP_first (· == '\n') r
        (fun x hx => by
          simp only [beq_iff_eq]
          exact fun h => hrs r (List.mem_cons_self r rest) (h ▸ hx))
        '\n' (by simp) ((rest.map (· ++ ['\n'])).flatten ++ t)]
    rw [ih fun x hx => hrs x (List.mem_cons_of_mem r hx)]

lemma compressTail_no_interior_empty (l : List (List Char)) (t : List Char)
    (hl : ∀ r ∈ l, r ≠ []) :
    compressTail (l ++ [t]) = l ++ [t] := by
  induction l with
  | nil => rfl
  | cons x rest ih =>
    have hx : x ≠ [] := hl x (List.mem_cons_self x rest)
    cases hrt : rest ++ [t] with
    | nil => exact absurd hrt (by simp)
    | cons y ys =>
      rw [List.cons_append, hrt, compressTail]
      rw [if_neg (by simpa [List.isEmpty_iff] using hx)]
      rw [← hrt, ih fun r hr => hl r (List.mem_cons_of_mem x hr)]

lemma ReadRequestsText_batch (rs : List String) (t : String)
    (hrs : ∀ r ∈ rs, r ≠ "" ∧ '\n' ∉ r.toList) (ht : '\n' ∉ t.toList) :
    ReadRequestsText (batchText rs ++ t) = rs := by
  unfold ReadRequestsText splitNLCompress
  rw [toList_append, toList_batchText]
  simp only [List.splitOn]
  rw [splitOnP_batch (rs.map String.toList) t.toList
    (fun x hx => by
      obtain ⟨s, hs, rfl⟩ := List.mem_map.mp hx
      exact (hrs s hs).2) ht]
  cases rs with
  | nil => simp [compressTail]
  | cons r rest =>
    simp only [List.map_cons, List.cons_append]
    rw [compressTail_no_interior_empty _ _ (fun x hx => by
      obtain ⟨s, hs, rfl⟩ := List.mem_map.mp hx
      intro hnil
      exact (hrs s (List.mem_cons_of_mem r hs)).1 (by rw [← mk_toList s, hnil]))]
    simp only [List.map_cons, List.map_append, List.map_map, mk_toList]
    have hcomp : (String.mk ∘ String.toList) = id := funext mk_toList
    rw [hcomp, List.map_id]
    simp only [List.map_nil]
    rw [← List.cons_append, List.dropLast_concat]

/-- C2 (amended): on one successful read, `ReadRequests` splits the
decoded text on newline with consecutive delimiters compressed and then
unconditionally drops the final entry of the split: when the text ends
in a newline the dropped entry is the empty trailing entry, so exactly
the ordered sequence of newline-terminated requests is returned, but a
batch whose final request is not newline-terminated loses that final
request (whatever unterminated tail follows the terminated requests is
discarded). -/
theorem readRequests_batch_framing :
    ∀ rs : List String, (∀ r ∈ rs, r ≠ "" ∧ '\n' ∉ r.toList) →
      ReadRequestsText (batchText rs) = rs ∧
      ∀ t : String, '\n' ∉ t.toList → ReadRequestsText (batchText rs ++ t) = rs := by
  intro rs h
  refine ⟨?_, fun t ht => ReadRequestsText_batch rs t h ht⟩
  have hempty := ReadRequestsText_batch rs "" h (by decide)
  rwa [show batchText rs ++ "" = batchText rs by
    rw [← mk_toList (batchText rs ++ ""), toList_append]
    simp [mk_toList]] at hempty

/-- C2 witness: the two newline-terminated requests of
`"set-led-state on\nget-led-rate\nget-"` are returned and the
unterminated tail `get-` is dropped. -/
theorem readRequests_batch_framing_witness :
    ReadRequestsText (batchText ["set-led-state on", "get-led-rate"] ++ "get-") =
      ["set-led-state on", "get-led-rate"] :=
  (readRequests_batch_framing ["set-led-state on", "get-led-rate"] (by decide)).2
    "get-" (by decide)

lemma commitResult_notified_self (res : Bool) (out : String) (g : LedState) :
    (commitResult res out g g).notified = [] := by
  rcases commitResult_spec res out g g with ⟨_, hne, _⟩ | ⟨_, hc⟩
  · exact absurd rfl hne
  · rw [hc]

/-- C5 (amended): the State Sink is notified exactly when a successful
handler produces a working copy that differs field-wise from the
committed record — on any dispatch, either nothing is notified and the
state is unchanged, or the dispatch succeeded, the state changed, and
the sink is notified exactly once with the new state; repeating the same
request immediately never notifies a second time (so two identical
mutating commands in a row notify at most once — exactly once when the
first one changes the state, as with `set-led-color red` from a blue
state — though both responses are `OK`), and successful queries never
notify.  When the state already holds the target value the first call
notifies zero times, not once. -/
theorem dispatch_notifies_iff_committed_change :
    (∀ (req : String) (g : LedState),
      ((DispatchRequest req g).notified = [] ∧ (DispatchRequest req g).st = g) ∨
      ((DispatchRequest req g).ok = Except.ok true ∧ (DispatchRequest req g).st ≠ g ∧
       (DispatchRequest req g).notified = [(DispatchRequest req g).st])) ∧
    (∀ (req : String) (g : LedState),
      (DispatchRequest req (DispatchRequest req g).st).notified = []) ∧
    (∀ g : LedState,
      (DispatchRequest "get-led-state" g).notified = [] ∧
      (DispatchRequest "get-led-color" g).notified = [] ∧
      (DispatchRequest "get-led-rate" g).notified = []) ∧
    ProcessClient ["set-led-color red", "set-led-color red"]
        { state := false, color := LedColor.Blue, rate := 1 } =
      .ok (["OK\n", "OK\n"], { state := false, color := LedColor.Red, rate := 1 },
           [{ state := false, color := LedColor.Red, rate := 1 }]) := by
  refine ⟨dispatch_notify_spec, dispatch_repeat_no_notify, fun g => ⟨?_, ?_, ?_⟩, rfl⟩
  · exact commitResult_notified_self true (if g.state then "on" else "off") g
  · exact commitResult_notified_self true _ g
  · exact commitResult_notified_self true (toString g.rate) g

/-- C5 counterexample: from the default state (whose color is already
`Red`), issuing `set-led-color red` twice returns `OK` both times but
notifies the State Sink zero times, not exactly once — the first call
already produces no state change. -/
theorem double_set_red_notifies_zero_times :
    ProcessClient ["set-led-color red", "set-led-color red"] gLedStateInit =
      .ok (["OK\n", "OK\n"], gLedStateInit, ([] : List LedState)) ∧
    ([] : List LedState).length ≠ 1 :=
  ⟨rfl, by decide⟩

end LedSrv
